import Mathlib

/-!
# Verification of the candidate-filtering dashboard core (`app.py`)

Shallow embedding of the data-cleaning and filtering core of the dashboard:
the cell normalizer `parse_field`, the loader `load_and_clean_data`, the
facet-option extraction (`all_geos` / `all_sectors`) and the filter block
that produces `filtered_df`.

Conventions of the embedding:
* A CSV cell is an `Option String`: `none` models a missing cell (pandas
  `NaN`, caught by `pd.isna`), `some s` models the textual cell content.
* Python `str.strip` / `str.lower` / `str.split(',')` are modelled over
  the character list of the string (`pyStrip`, `pyLower`, `splitCommaList`);
  whitespace is `Char.isWhitespace` (the ASCII fragment of Python's set).
* `ast.literal_eval` is modelled by `literalEvalList`, an executable parser
  for the fragment of Python list literals that the cells use: `[` … `]`
  with comma-separated elements that are single-quoted or double-quoted
  strings (no escape sequences) or plain integer literals.  Any other text
  is a parse failure (`none`), which matches `literal_eval` raising on it.
* Exceptions are modelled with `Except`: the outcome of `pd.read_csv` is
  an `Except PyErr Csv` input (`.ok` a frame, `.error .fileNotFoundError`
  for a missing file, `.error (.otherReadError kind)` for a source that
  exists but cannot be read or parsed — `PermissionError`,
  `EmptyDataError`, `ParserError`, …).  The loader's `except` clause
  catches only `FileNotFoundError`; every other exception, including a
  `KeyError` from indexing a missing column, propagates as `.error`.
-/

namespace ResumeFilter

/-- Python `str.isspace`-style character test used by `str.strip`
(ASCII fragment: space, tab, carriage return, newline). -/
def isPySpace (c : Char) : Bool := c.isWhitespace

/-- Strip leading and trailing whitespace characters from a character list
(model of Python `str.strip` on the string's characters). -/
def stripList (l : List Char) : List Char :=
  ((l.dropWhile isPySpace).reverse.dropWhile isPySpace).reverse

/-- Model of Python `str.strip()`. -/
def pyStrip (s : String) : String := String.mk (stripList s.data)

/-- Model of Python `str.lower()` (ASCII case folding). -/
def pyLower (s : String) : String := String.mk (s.data.map Char.toLower)

/-- Split a character list on `','` (model of Python `str.split(',')`):
every comma is a separator, empty pieces are kept. -/
def splitCommaList : List Char → List Char → List (List Char)
  | [], acc => [acc.reverse]
  | c :: cs, acc =>
    if c = ',' then acc.reverse :: splitCommaList cs [] else splitCommaList cs (c :: acc)

/-- Model of Python `s.startswith(c)` for a one-character prefix. -/
def pyStartsWith (s : String) (c : Char) : Bool := s.data.head? = some c

/-- Model of Python `s.endswith(c)` for a one-character suffix. -/
def pyEndsWith (s : String) (c : Char) : Bool := s.data.getLast? = some c

/-! ## Model of `ast.literal_eval` on list literals -/

/-- Skip leading whitespace. -/
def skipSpaces : List Char → List Char
  | [] => []
  | c :: cs => if isPySpace c then skipSpaces cs else c :: cs

/-- Consume characters up to (and including) the closing quote `q`;
fails when the quote never closes.  Escape sequences are outside the
modelled fragment and make the parse fail at the surrounding grammar. -/
def takeUntilQuote (q : Char) : List Char → Option (List Char × List Char)
  | [] => none
  | c :: cs =>
    if c = q then some ([], cs)
    else
      match takeUntilQuote q cs with
      | none => none
      | some (pre, rest) => some (c :: pre, rest)

/-- Parse a Python integer literal token (optional `-`, digits, no leading
zero except `0` itself), returning its `str()` form. -/
def parseIntToken (cs : List Char) : Option (String × List Char) :=
  let (neg, cs') : Bool × List Char :=
    match cs with
    | '-' :: rest => (true, rest)
    | _ => (false, cs)
  let digits := cs'.takeWhile Char.isDigit
  let rest := cs'.dropWhile Char.isDigit
  if digits.isEmpty then none
  else if 1 < digits.length && digits.head? = some '0' then none
  else if neg && digits = ['0'] then none
  else some (String.mk (if neg then '-' :: digits else digits), rest)

/-- Parse one list element: a quoted string or an integer literal,
returning its `str()` form. -/
def parseItem : List Char → Option (String × List Char)
  | [] => none
  | c :: cs =>
    if c = '\'' || c = '"' then
      match takeUntilQuote c cs with
      | none => none
      | some (pre, rest) => some (String.mk pre, rest)
    else if c.isDigit || c = '-' then parseIntToken (c :: cs)
    else none

/-- Parse the items of a list literal after the opening `[`, up to the
closing `]` (trailing comma allowed, as in Python); fuel bounds the
recursion. -/
def parseItems : Nat → List Char → List String → Option (List String)
  | 0, _, _ => none
  | Nat.succ fuel, cs, acc =>
    match skipSpaces cs with
    | ']' :: rest => if skipSpaces rest = [] then some acc.reverse else none
    | cs' =>
      match parseItem cs' with
      | none => none
      | some (v, rest) =>
        match skipSpaces rest with
        | ',' :: rest2 => parseItems fuel rest2 (v :: acc)
        | ']' :: rest2 => if skipSpaces rest2 = [] then some ((v :: acc).reverse) else none
        | _ => none

/-- Model of `ast.literal_eval` restricted to list literals over quoted
strings and integer literals; every other input is a parse failure
(`none`), matching `literal_eval` raising on it.  The elements are
returned in their Python `str()` form. -/
def literalEvalList (s : String) : Option (List String) :=
  match skipSpaces s.data with
  | '[' :: rest => parseItems (s.data.length + 1) rest []
  | _ => none

/-! ## `parse_field` (app.py lines 62–87) -/

/-- The null-like tokens dropped inside a successfully parsed list literal
(app.py line 76). -/
def nullLikeFull : List String := ["none", "n/a", "nan", ""]

/-- The null-like tokens dropped by the comma-split and single-item
branches (app.py lines 84 and 87). -/
def nullLikeComma : List String := ["none", "n/a"]

/-- The values whose lowercase form short-circuits `parse_field` to `[]`
(app.py line 63). -/
def nullGuard : List String := ["nan", "none"]

/-- The comma-split / single-item fallback of `parse_field`
(app.py lines 82–87). -/
def commaOrSingle (xStr : String) : List String :=
  if xStr.data.contains ',' then
    ((splitCommaList xStr.data []).map (fun p => String.mk (stripList p))).filter
      (fun i => !(nullLikeComma.contains (pyLower i)))
  else if nullLikeComma.contains (pyLower xStr) then [] else [xStr]

/-- Embedding of `parse_field` (app.py lines 62–87).  The input cell is
`none` for a missing value (`pd.isna`), `some s` for cell text `s`. -/
def parse_field (x : Option String) : List String :=
  match x with
  | none => []
  | some s =>
    if s = "" || nullGuard.contains (pyLower s) then []
    else
      let xStr := pyStrip s
      if pyStartsWith xStr '[' && pyEndsWith xStr ']' then
        match literalEvalList xStr with
        | some parsed =>
          (parsed.map pyStrip).filter (fun i => !(nullLikeFull.contains (pyLower i)))
        | none => commaOrSingle xStr
      else commaOrSingle xStr

/-! ## Loader (`load_and_clean_data`, app.py lines 42–115) -/

/-- Physical column names of the `col_map` (app.py lines 48–60). -/
def nameCol : String := "Name"

def emailCol : String := "Email"

def phoneCol : String := "Phone number"

def geographyCol : String := "Geographies the candidate has worked in"

def strategyCol : String := "Investment Approaches"

def rationaleCol : String := "Rationale for Investment Approaches classification"

def companiesCol : String := "Companies that the candidate has worked in"

def sectorsCol : String := "Sectors that the candidate has worked in"

def experienceCol : String := "Total Years of Experience(Excluding Internships)"

def workHistoryCol : String := "Work History"

def internshipCol : String := "Internship History"

/-- A CSV table: a header of column names and rows of cells aligned with
the header.  A `none` cell is a missing value (pandas `NaN`). -/
structure Csv where
  header : List String
  rows : List (List (Option String))

/-- Look up the cell of column `c` in a row: `none` when the column is
absent from the header (or the row is short) or when the cell itself is
missing. -/
def getCell (header : List String) (row : List (Option String)) (c : String) :
    Option String :=
  match header.findIdx? (· = c) with
  | some i => (row.get? i).join
  | none => none

/-- The numeric value of a digit run. -/
def digitsVal (l : List Char) : ℕ := l.foldl (fun n c => 10 * n + (c.toNat - 48)) 0

/-- Model of `pd.to_numeric(·, errors='coerce')` on one cell text: parse a
plain decimal number (optional sign, digits, optional fractional part,
surrounding whitespace allowed); anything else coerces to `NaN` (`none`).
Exponent notation and `inf`/`nan` words are outside the modelled fragment. -/
def toNumeric (s : String) : Option ℚ :=
  let cs := stripList s.data
  let (sgn, cs') : ℤ × List Char :=
    match cs with
    | '-' :: rest => (-1, rest)
    | '+' :: rest => (1, rest)
    | _ => (1, cs)
  let intPart := cs'.takeWhile Char.isDigit
  let rest := cs'.dropWhile Char.isDigit
  match rest with
  | [] =>
    if intPart.isEmpty then none
    else some (mkRat (sgn * digitsVal intPart) 1)
  | '.' :: frac =>
    if frac.all Char.isDigit && !(intPart.isEmpty && frac.isEmpty) then
      some (mkRat (sgn * (digitsVal intPart * 10 ^ frac.length + digitsVal frac))
             (10 ^ frac.length))
    else none
  | _ => none

/-- One row of the loaded table, with the cleaning of app.py lines 97–104
applied: list-valued columns normalized by `parse_field` (when present),
`experienceYears` coerced with fallback 0, string scalars defaulted. -/
structure CandidateRecord where
  name : String
  email : Option String
  phone : Option String
  strategy : String
  rationale : String
  experienceYears : ℚ
  geographies : List String
  sectors : List String
  companies : List String
  workHistory : List String
  internships : List String
  deriving Repr, DecidableEq

/-- Build the cleaned record of one row (the per-row effect of app.py
lines 97–104).  A list column absent from the header leaves the field `[]`
(the `if col in df.columns` guard of line 98). -/
def mkRecord (header : List String) (row : List (Option String)) : CandidateRecord :=
  let listField : String → List String := fun c =>
    if c ∈ header then parse_field (getCell header row c) else []
  { name := (getCell header row nameCol).getD "Unknown Candidate"
    email := getCell header row emailCol
    phone := getCell header row phoneCol
    strategy := (getCell header row strategyCol).getD "Unclassified"
    rationale := (getCell header row rationaleCol).getD "No rationale provided."
    experienceYears := ((getCell header row experienceCol).bind toNumeric).getD 0
    geographies := listField geographyCol
    sectors := listField sectorsCol
    companies := listField companiesCol
    workHistory := listField workHistoryCol
    internships := listField internshipCol }

/-- A Python exception.  `keyError` is raised by indexing a column absent
from the frame (app.py lines 101–104); `fileNotFoundError` by
`pd.read_csv` on a missing file; `otherReadError` stands for any other
exception `pd.read_csv` raises on a source that exists but cannot be read
or parsed (`PermissionError`, `EmptyDataError`, `ParserError`, …). -/
inductive PyErr where
  | keyError (col : String)
  | fileNotFoundError
  | otherReadError (kind : String)
  deriving Repr, DecidableEq

/-- Model of `df[c]` used on the left of `.fillna` / `pd.to_numeric`
(app.py lines 101–104): raises `KeyError` when the column is absent. -/
def requireCol (header : List String) (c : String) : Except PyErr Unit :=
  if c ∈ header then .ok () else .error (.keyError c)

/-- Embedding of `load_and_clean_data` (app.py lines 42–115).  The input
is the outcome of `pd.read_csv` (line 45).  The function's `except`
clause catches only `FileNotFoundError`, returning an empty frame and an
empty column map; any other read failure propagates uncaught.  On a read
frame, column names are stripped (line 46); the columns of lines 101–104
are accessed unconditionally, so their absence raises `KeyError`
(uncaught). -/
def load_and_clean_data (src : Except PyErr Csv) :
    Except PyErr (List CandidateRecord × List String) :=
  match src with
  | .error .fileNotFoundError => .ok ([], [])
  | .error e => .error e
  | .ok csv => do
    let header := csv.header.map pyStrip
    requireCol header experienceCol
    requireCol header nameCol
    requireCol header strategyCol
    requireCol header rationaleCol
    .ok (csv.rows.map (mkRecord header), header)

/-- The caller's guard (app.py lines 112–115): `st.stop()` halts the
script when the loaded frame is empty, so processing proceeds only on a
successful load with at least one record. -/
def appProceeds (res : Except PyErr (List CandidateRecord × List String)) : Bool :=
  match res with
  | .ok (records, _) => !records.isEmpty
  | .error _ => false

/-! ## Facet options (app.py lines 122–131) -/

/-- Lexicographic comparison of character lists by code point (the order
Python `<` puts on strings). -/
def lexLt : List Char → List Char → Bool
  | [], [] => false
  | [], _ :: _ => true
  | _ :: _, [] => false
  | a :: as, b :: bs =>
    if a.toNat < b.toNat then true
    else if b.toNat < a.toNat then false
    else lexLt as bs

/-- Model of Python's `s < t` on strings (case-sensitive ordinal
comparison). -/
def pyStrLt (s t : String) : Bool := lexLt s.data t.data

/-- Insert a string into a list sorted ascending by `pyStrLt`. -/
def insertStr (s : String) : List String → List String
  | [] => [s]
  | t :: ts => if pyStrLt t s then t :: insertStr s ts else s :: t :: ts

/-- Insertion sort by `pyStrLt` (model of Python `sorted` on strings). -/
def sortStrings : List String → List String
  | [] => []
  | s :: ss => insertStr s (sortStrings ss)

/-- Model of `sorted(list(set([item for sublist in col for item in
sublist])))`: the deduplicated union of the per-row lists, sorted by
case-sensitive code-point lexicographic order (Python's ordinal string
sort). -/
def extractOptions (lists : List (List String)) : List String :=
  sortStrings lists.flatten.dedup

/-- The geography option set of the sidebar (app.py lines 122–126):
empty when the geography column is absent from the loaded header. -/
def all_geos (header : List String) (records : List CandidateRecord) : List String :=
  if geographyCol ∈ header then extractOptions (records.map (·.geographies)) else []

/-- The sector option set of the sidebar (app.py lines 129–133). -/
def all_sectors (header : List String) (records : List CandidateRecord) : List String :=
  if sectorsCol ∈ header then extractOptions (records.map (·.sectors)) else []

/-! ## Filter block (app.py lines 151–175) -/

/-- The user's filter selections of one render cycle. -/
structure FilterSelection where
  selectedStrategies : List String
  selectedGeos : List String
  selectedSectors : List String
  expMin : ℚ
  expMax : ℚ

/-- Model of `bool(set(x) & set(ys))`: the two lists share an element. -/
def overlaps (xs ys : List String) : Bool := xs.any (fun x => ys.contains x)

/-- Embedding of the filter block (app.py lines 151–175): strategy
membership filter when a strategy is selected, then the inclusive
experience-range filter (the experience column always exists after a
successful load, line 101), then the geography and sector overlap filters,
each only when its selection is non-empty. -/
def filtered_df (records : List CandidateRecord) (sel : FilterSelection) :
    List CandidateRecord :=
  let r := records
  let r := if sel.selectedStrategies.isEmpty then r
           else r.filter (fun c => sel.selectedStrategies.contains c.strategy)
  let r := r.filter (fun c => decide (sel.expMin ≤ c.experienceYears) &&
                              decide (c.experienceYears ≤ sel.expMax))
  let r := if sel.selectedGeos.isEmpty then r
           else r.filter (fun c => overlaps c.geographies sel.selectedGeos)
  let r := if sel.selectedSectors.isEmpty then r
           else r.filter (fun c => overlaps c.sectors sel.selectedSectors)
  r

/-- The conjunction of the four filter predicates: strategy membership
(vacuous on empty selection), inclusive experience bounds, geography
overlap and sector overlap (each vacuous on empty selection). -/
def filterPred (sel : FilterSelection) (c : CandidateRecord) : Bool :=
  (sel.selectedStrategies.isEmpty || sel.selectedStrategies.contains c.strategy) &&
  (decide (sel.expMin ≤ c.experienceYears) && decide (c.experienceYears ≤ sel.expMax)) &&
  (sel.selectedGeos.isEmpty || overlaps c.geographies sel.selectedGeos) &&
  (sel.selectedSectors.isEmpty || overlaps c.sectors sel.selectedSectors)

instance {ε α : Type} [DecidableEq ε] [DecidableEq α] : DecidableEq (Except ε α) := fun x y =>
  match x, y with
  | .ok a, .ok b =>
    if h : a = b then .isTrue (congrArg Except.ok h)
    else .isFalse fun he => h (Except.ok.inj he)
  | .ok _, .error _ => .isFalse fun he => Except.noConfusion he
  | .error _, .ok _ => .isFalse fun he => Except.noConfusion he
  | .error e, .error f =>
    if h : e = f then .isTrue (congrArg Except.error h)
    else .isFalse fun he => h (Except.error.inj he)

/-! ## Concrete data used by counterexamples and witnesses -/

/-- A one-row source whose experience cell is the negative numeric text
`"-5"`; the four scalar columns accessed unconditionally by the loader are
present. -/
def negExpCsv : Csv :=
  { header := [nameCol, strategyCol, rationaleCol, experienceCol]
    rows := [[some "Ada", some "Quantitative", some "r", some "-5"]] }

/-- A source that lacks the `Name` column (the other unconditionally
accessed columns are present). -/
def noNameCsv : Csv :=
  { header := [strategyCol, rationaleCol, experienceCol]
    rows := [] }

/-- A source with only the four unconditionally accessed columns: every
list-valued column and the email/phone columns are absent. -/
def minimalCsv : Csv :=
  { header := [nameCol, strategyCol, rationaleCol, experienceCol]
    rows := [[some "Ada", some "Quantitative", some "r", some "3"]] }

/-- A record whose geography list holds the lowercase `"apac"`. -/
def apacRecord : CandidateRecord :=
  { name := "Lee", email := none, phone := none, strategy := "Quantitative"
    rationale := "r", experienceYears := 5, geographies := ["apac"]
    sectors := [], companies := [], workHistory := [], internships := [] }

/-- A selection asking for the uppercase geography `"APAC"` only. -/
def apacSelection : FilterSelection :=
  { selectedStrategies := [], selectedGeos := ["APAC"], selectedSectors := []
    expMin := 0, expMax := 10 }

/-- A record matching `exactSelection` on every facet. -/
def exactRecord : CandidateRecord :=
  { name := "Kim", email := none, phone := none, strategy := "Quantitative"
    rationale := "r", experienceYears := 5, geographies := ["APAC"]
    sectors := ["Tech"], companies := [], workHistory := [], internships := [] }

/-- A selection with all three categorical facets non-empty. -/
def exactSelection : FilterSelection :=
  { selectedStrategies := ["Quantitative"], selectedGeos := ["APAC"]
    selectedSectors := ["Tech"], expMin := 0, expMax := 10 }

/-! ## Concrete evaluations of the embedding -/

example : parse_field (some "['A', 'B', 'None']") = ["A", "B"] := by decide
example : parse_field (some "A, B, C") = ["A", "B", "C"] := by decide
example : parse_field (some "A") = ["A"] := by decide
example : parse_field (some "[A, B") = ["[A", "B"] := by decide
example : parse_field (some "[A, B]") = ["[A", "B]"] := by decide
example : parse_field (some "None") = [] := by decide
example : parse_field (some "") = [] := by decide
example : parse_field none = [] := by decide
example : parse_field (some " nan ") = ["nan"] := by decide
example : parse_field (some "A, nan") = ["A", "nan"] := by decide
example : parse_field (some "  ") = [""] := by decide
example : extractOptions [["US", "UK"], ["UK"], []] = ["UK", "US"] := by decide

/-! ## Helper lemmas about stripping -/

theorem dropWhile_head_false {α : Type} (p : α → Bool) (l : List α) :
    ∀ a, (l.dropWhile p).head? = some a → p a = false := by
  induction l with
  | nil => intro a h; simp [List.dropWhile] at h
  | cons x xs ih =>
    intro a h
    rw [List.dropWhile_cons] at h
    by_cases hx : p x = true
    · exact ih a (by simpa [hx] using h)
    · simp [hx] at h
      subst h
      simpa using hx

theorem dropWhile_eq_self_of_head {α : Type} (p : α → Bool) (l : List α)
    (h : ∀ a, l.head? = some a → p a = false) : l.dropWhile p = l := by
  cases l with
  | nil => rfl
  | cons x xs =>
    have hx : p x = false := h x rfl
    simp [List.dropWhile_cons, hx]

theorem getLast?_dropWhile {α : Type} (p : α → Bool) (l : List α)
    (h : l.dropWhile p ≠ []) : (l.dropWhile p).getLast? = l.getLast? := by
  induction l with
  | nil => simp [List.dropWhile] at h
  | cons x xs ih =>
    rw [List.dropWhile_cons]
    by_cases hx : p x = true
    · rw [List.dropWhile_cons, if_pos hx] at h
      rw [if_pos hx, ih h]
      cases xs with
      | nil => simp [List.dropWhile] at h
      | cons y ys => rw [List.getLast?_cons_cons]
    · simp [hx]

theorem head?_stripList_false (l : List Char) :
    ∀ a, (stripList l).head? = some a → isPySpace a = false := by
  intro a h
  unfold stripList at h
  rcases hn : (l.dropWhile isPySpace).reverse.dropWhile isPySpace with _ | ⟨b, bs⟩
  · rw [hn] at h; simp at h
  · rw [hn] at h
    rw [List.head?_reverse] at h
    have hne : (l.dropWhile isPySpace).reverse.dropWhile isPySpace ≠ [] := by
      rw [hn]; simp
    have hlast := getLast?_dropWhile isPySpace (l.dropWhile isPySpace).reverse hne
    rw [hn] at hlast
    rw [hlast, List.getLast?_reverse] at h
    exact dropWhile_head_false isPySpace l a h

theorem getLast?_stripList_false (l : List Char) :
    ∀ a, (stripList l).getLast? = some a → isPySpace a = false := by
  intro a h
  unfold stripList at h
  rw [List.getLast?_reverse] at h
  exact dropWhile_head_false isPySpace _ a h

theorem stripList_idem (l : List Char) : stripList (stripList l) = stripList l := by
  conv_lhs => rw [stripList]
  rw [dropWhile_eq_self_of_head isPySpace (stripList l) (head?_stripList_false l)]
  rw [dropWhile_eq_self_of_head isPySpace (stripList l).reverse
      (fun a h => getLast?_stripList_false l a (by rwa [List.head?_reverse] at h))]
  rw [List.reverse_reverse]

theorem data_mk (l : List Char) : (String.mk l).data = l := rfl

theorem pyStrip_idem (s : String) : pyStrip (pyStrip s) = pyStrip s := by
  unfold pyStrip
  rw [data_mk, stripList_idem]

theorem string_data_inj {s t : String} (h : s.data = t.data) : s = t := by
  cases s; cases t; exact congrArg String.mk h

theorem contains_iff (l : List String) (a : String) : l.contains a = true ↔ a ∈ l :=
  List.elem_iff

/-! ## Helper lemmas about `parse_field` -/

/-- Every string produced by `commaOrSingle` on a stripped input is itself
stripped, and its lowercase form is neither `"none"` nor `"n/a"`. -/
theorem commaOrSingle_elems (xStr : String) (hx : pyStrip xStr = xStr) :
    ∀ e ∈ commaOrSingle xStr, pyStrip e = e ∧ pyLower e ∉ nullLikeComma := by
  intro e he
  unfold commaOrSingle at he
  by_cases hc : xStr.data.contains ','
  · rw [if_pos hc] at he
    rcases List.mem_filter.mp he with ⟨hmem, hcond⟩
    rcases List.mem_map.mp hmem with ⟨p, _, rfl⟩
    constructor
    · unfold pyStrip
      rw [data_mk, stripList_idem]
    · intro habs
      rw [(contains_iff _ _).mpr habs] at hcond
      simp at hcond
  · rw [if_neg hc] at he
    by_cases hn : nullLikeComma.contains (pyLower xStr)
    · rw [if_pos hn] at he
      simp at he
    · rw [if_neg hn] at he
      rcases List.mem_singleton.mp he with rfl
      refine ⟨hx, ?_⟩
      intro habs
      exact hn ((contains_iff _ _).mpr habs)

/-- Every string returned by `parse_field` is stripped, and its lowercase
form is neither `"none"` nor `"n/a"`. -/
theorem parse_field_elems (x : Option String) :
    ∀ e ∈ parse_field x, pyStrip e = e ∧ pyLower e ∉ nullLikeComma := by
  intro e he
  cases x with
  | none => simp [parse_field] at he
  | some s =>
    simp only [parse_field] at he
    by_cases hg : (s = "" || nullGuard.contains (pyLower s)) = true
    · rw [if_pos hg] at he; simp at he
    · rw [if_neg hg] at he
      have hstrip : pyStrip (pyStrip s) = pyStrip s := pyStrip_idem s
      by_cases hb : (pyStartsWith (pyStrip s) '[' && pyEndsWith (pyStrip s) ']') = true
      · rw [if_pos hb] at he
        rcases hev : literalEvalList (pyStrip s) with _ | parsed
        · rw [hev] at he
          exact commaOrSingle_elems (pyStrip s) hstrip e he
        · rw [hev] at he
          rcases List.mem_filter.mp he with ⟨hmem, hcond⟩
          rcases List.mem_map.mp hmem with ⟨p, _, rfl⟩
          refine ⟨pyStrip_idem p, ?_⟩
          intro habs
          have habs' : pyLower (pyStrip p) ∈ nullLikeFull := by
            simp [nullLikeComma] at habs
            simp [nullLikeFull]
            tauto
          rw [(contains_iff _ _).mpr habs'] at hcond
          simp at hcond
      · rw [if_neg hb] at he
        exact commaOrSingle_elems (pyStrip s) hstrip e he

/-- When the stripped text starts with `'['`, the null short-circuit of
app.py line 63 cannot fire: the raw value is neither `""` nor a case
variant of `"nan"` / `"none"`. -/
theorem guard_false_of_bracket (s : String)
    (h : pyStartsWith (pyStrip s) '[' = true) :
    (s = "" || nullGuard.contains (pyLower s)) = false := by
  have hmem : '[' ∈ s.data := by
    unfold pyStartsWith at h
    rw [decide_eq_true_iff] at h
    have h1 : '[' ∈ (pyStrip s).data := by
      cases hd : (pyStrip s).data with
      | nil => rw [hd] at h; simp at h
      | cons c cs =>
        rw [hd] at h
        simp at h
        simp [h]
    unfold pyStrip stripList at h1
    rw [data_mk] at h1
    rw [List.mem_reverse] at h1
    have h2 := (List.dropWhile_sublist isPySpace).mem h1
    rw [List.mem_reverse] at h2
    exact (List.dropWhile_sublist isPySpace).mem h2
  have hne : s ≠ "" := by
    intro habs
    rw [habs] at hmem
    simp [String.data] at hmem
  have hlow : ∀ w : String, pyLower s = w → '[' ∈ w.data := by
    intro w hw
    rw [← hw]
    unfold pyLower
    rw [data_mk]
    have : Char.toLower '[' = '[' := by decide
    rw [← this]
    exact List.mem_map_of_mem Char.toLower hmem
  have hguard : nullGuard.contains (pyLower s) = false := by
    rw [Bool.eq_false_iff]
    intro habs
    have habs' := (contains_iff _ _).mp habs
    simp [nullGuard] at habs'
    rcases habs' with h1 | h1
    · have := hlow "nan" h1
      simp [String.data] at this
    · have := hlow "none" h1
      simp [String.data] at this
  simp [hne, hguard]
  intro habs
  rw [(contains_iff _ _).mpr habs] at hguard
  simp at hguard

/-! ## Helper lemmas about the filter block -/

theorem filtered_df_eq_filter (records : List CandidateRecord) (sel : FilterSelection) :
    filtered_df records sel = records.filter (filterPred sel) := by
  cases hS : sel.selectedStrategies.isEmpty <;>
    cases hG : sel.selectedGeos.isEmpty <;>
      cases hSec : sel.selectedSectors.isEmpty <;>
        · simp only [filtered_df, hS, hG, hSec, Bool.false_eq_true, if_false, if_true,
            List.filter_filter]
          exact List.filter_congr fun c _ => by
            simp [filterPred, hS, hG, hSec, Bool.and_comm, Bool.and_assoc, Bool.and_left_comm]

/-! ## Helper lemmas about the ordinal string order and sorting -/

theorem lexLt_trans (a : List Char) :
    ∀ b c, lexLt a b = true → lexLt b c = true → lexLt a c = true := by
  induction a with
  | nil =>
    intro b c hab hbc
    cases b with
    | nil => simp [lexLt] at hab
    | cons y ys =>
      cases c with
      | nil => simp [lexLt] at hbc
      | cons z zs => simp [lexLt]
  | cons x xs ih =>
    intro b c hab hbc
    cases b with
    | nil => simp [lexLt] at hab
    | cons y ys =>
      cases c with
      | nil => simp [lexLt] at hbc
      | cons z zs =>
        simp only [lexLt] at hab hbc ⊢
        by_cases h1 : x.toNat < y.toNat
        · by_cases h2 : y.toNat < z.toNat
          · simp [Nat.lt_trans h1 h2]
          · by_cases h2' : z.toNat < y.toNat
            · simp [h2, h2'] at hbc
            · have h3 : x.toNat < z.toNat := by omega
              simp [h3]
        · by_cases h1' : y.toNat < x.toNat
          · simp [h1, h1'] at hab
          · simp [h1, h1'] at hab
            by_cases h2 : y.toNat < z.toNat
            · have h3 : x.toNat < z.toNat := by omega
              simp [h3]
            · by_cases h2' : z.toNat < y.toNat
              · simp [h2, h2'] at hbc
              · simp [h2, h2'] at hbc
                have h3 : ¬ x.toNat < z.toNat := by omega
                have h3' : ¬ z.toNat < x.toNat := by omega
                simp [h3, h3']
                exact ih ys zs hab hbc

theorem char_toNat_inj {x y : Char} (h : x.toNat = y.toNat) : x = y := by
  have := congrArg Char.ofNat h
  rwa [Char.ofNat_toNat, Char.ofNat_toNat] at this

theorem lexLt_connex (a : List Char) :
    ∀ b, lexLt a b = false → lexLt b a = false → a = b := by
  induction a with
  | nil =>
    intro b hab _
    cases b with
    | nil => rfl
    | cons y ys => simp [lexLt] at hab
  | cons x xs ih =>
    intro b hab hba
    cases b with
    | nil => simp [lexLt] at hba
    | cons y ys =>
      simp only [lexLt] at hab hba
      by_cases h1 : x.toNat < y.toNat
      · simp [h1] at hab
      · by_cases h1' : y.toNat < x.toNat
        · simp [h1, h1'] at hba
        · simp [h1, h1'] at hab hba
          have hx : x = y := char_toNat_inj (by omega)
          rw [hx, ih ys hab hba]

theorem lexLt_irrefl (a : List Char) : lexLt a a = false := by
  induction a with
  | nil => rfl
  | cons x xs ih => simp [lexLt, ih]

theorem pyStrLt_ne {a b : String} (h : pyStrLt a b = true) : a ≠ b := by
  intro habs
  rw [habs] at h
  unfold pyStrLt at h
  rw [lexLt_irrefl] at h
  exact Bool.false_ne_true h

theorem mem_insertStr (s a : String) (l : List String) :
    a ∈ insertStr s l ↔ a = s ∨ a ∈ l := by
  induction l with
  | nil => simp [insertStr]
  | cons t ts ih =>
    rw [insertStr]
    by_cases h : pyStrLt t s = true
    · rw [if_pos h]
      simp [ih]
      tauto
    · rw [if_neg h]
      simp

theorem pairwise_insertStr (s : String) (l : List String)
    (hl : l.Pairwise (fun a b => pyStrLt a b = true)) (hs : s ∉ l) :
    (insertStr s l).Pairwise (fun a b => pyStrLt a b = true) := by
  induction l with
  | nil => simp [insertStr]
  | cons t ts ih =>
    rcases List.pairwise_cons.mp hl with ⟨ht, hts⟩
    have hsts : s ∉ ts := fun hmem => hs (List.mem_cons_of_mem t hmem)
    have hst : s ≠ t := fun habs => hs (habs ▸ List.mem_cons_self t ts)
    rw [insertStr]
    by_cases h : pyStrLt t s = true
    · rw [if_pos h]
      refine List.pairwise_cons.mpr ⟨?_, ih hts hsts⟩
      intro b hb
      rcases (mem_insertStr s b ts).mp hb with rfl | hbts
      · exact h
      · exact ht b hbts
    · rw [if_neg h]
      have hslt : pyStrLt s t = true := by
        rcases hlt : lexLt s.data t.data with _ | _
        · exfalso
          have hconn := lexLt_connex s.data t.data hlt (by
            rw [Bool.eq_false_iff]
            intro habs
            exact h habs)
          exact hst (string_data_inj hconn)
        · exact hlt
      refine List.pairwise_cons.mpr ⟨?_, hl⟩
      intro b hb
      rcases List.mem_cons.mp hb with rfl | hbts
      · exact hslt
      · exact lexLt_trans s.data t.data b.data hslt (ht b hbts)

theorem mem_sortStrings (a : String) (l : List String) :
    a ∈ sortStrings l ↔ a ∈ l := by
  induction l with
  | nil => simp [sortStrings]
  | cons s ss ih =>
    rw [sortStrings, mem_insertStr]
    simp [ih]

theorem pairwise_sortStrings (l : List String) (h : l.Nodup) :
    (sortStrings l).Pairwise (fun a b => pyStrLt a b = true) := by
  induction l with
  | nil => simp [sortStrings]
  | cons s ss ih =>
    rcases List.nodup_cons.mp h with ⟨hs, hss⟩
    rw [sortStrings]
    exact pairwise_insertStr s (sortStrings ss) (ih hss)
      (fun hmem => hs ((mem_sortStrings s ss).mp hmem))

/-! ## The claims -/

/-- C1, counterexample: the input `"A, nan"` contains a comma and is not a
bracket literal, and the trimmed lowercase form of its piece `" nan"` is
the null-like token `"nan"`, yet the piece is kept: the comma branch drops
only `"none"` and `"n/a"` (app.py line 84), not the full null-like set. -/
theorem parse_field_comma_keeps_nan_cex :
    parse_field (some "A, nan") = ["A", "nan"] ∧ pyLower (pyStrip " nan") ∈ nullLikeFull := by
  decide

/-- C1 (amended): every string returned by `parse_field` is trimmed, and
its lowercase form is never `"none"` or `"n/a"`; the remaining null-like
tokens `"nan"` and `""` are only guaranteed to be dropped by the
bracket-literal branch, not by the comma-split or single-item branches. -/
theorem parse_field_returns_trimmed_non_none (x : Option String) :
    ∀ e ∈ parse_field x, pyStrip e = e ∧ pyLower e ∉ nullLikeComma :=
  parse_field_elems x

/-- Witness for C1's amended theorem at the input `"A, B"`. -/
theorem parse_field_returns_trimmed_non_none_witness :
    pyStrip "A" = "A" ∧ pyLower "A" ∉ nullLikeComma :=
  parse_field_returns_trimmed_non_none (some "A, B") "A" (by decide)

/-- C2: the filter block returns exactly the records satisfying the
conjunction of the four predicates (strategy membership vacuous on empty
selection, inclusive experience bounds, geography overlap, sector
overlap), in their original input order (a sublist of the input). -/
theorem filter_is_conjunctive_and_ordered (records : List CandidateRecord)
    (sel : FilterSelection) :
    filtered_df records sel = records.filter (filterPred sel) ∧
    (filtered_df records sel).Sublist records := by
  refine ⟨filtered_df_eq_filter records sel, ?_⟩
  rw [filtered_df_eq_filter]
  exact List.filter_sublist records

/-- C3: on a value whose stripped text starts with `[` and ends with `]`
but fails to parse as a list literal, `parse_field` silently falls through
to the comma-split / single-item fallback (no exception is propagated:
the embedding is a total function); and the spec's malformed example
`"[A, B"` comma-splits to `["[A", "B"]`. -/
theorem parse_field_malformed_bracket_falls_through :
    (∀ s : String,
      pyStartsWith (pyStrip s) '[' = true → pyEndsWith (pyStrip s) ']' = true →
      literalEvalList (pyStrip s) = none →
      parse_field (some s) = commaOrSingle (pyStrip s)) ∧
    parse_field (some "[A, B") = ["[A", "B"] := by
  constructor
  · intro s hstart hend hev
    have hg := guard_false_of_bracket s hstart
    simp only [parse_field, hg, Bool.false_eq_true, if_false, hstart, hend,
      Bool.and_self, if_true, hev]
  · decide

/-- Witness for C3 at the malformed literal `"[A, B]"` (unquoted
elements make `literal_eval` fail). -/
theorem parse_field_malformed_bracket_falls_through_witness :
    parse_field (some "[A, B]") = commaOrSingle (pyStrip "[A, B]") :=
  parse_field_malformed_bracket_falls_through.1 "[A, B]" (by decide) (by decide) (by decide)

/-- C4, counterexample: the input `" nan "` has trimmed case-folded form
`"nan"`, yet `parse_field` returns `["nan"]`, not `[]` — the null guard
of app.py line 63 tests the unstripped string. -/
theorem parse_field_guard_untrimmed_cex :
    pyLower (pyStrip " nan ") = "nan" ∧ parse_field (some " nan ") = ["nan"] ∧
    parse_field (some " nan ") ≠ [] := by
  decide

/-- C4 (amended): `parse_field` returns `[]` whenever the value is
missing, or its string form case-folded **without trimming** equals `""`,
`"nan"` or `"none"`; in particular `parse_field none = []`,
`parse_field "" = []` and `parse_field "None" = []`.  (Surrounding
whitespace defeats the guard for `"nan"`.) -/
theorem parse_field_null_guard :
    parse_field none = [] ∧
    (∀ s : String, (s = "" ∨ pyLower s = "nan" ∨ pyLower s = "none") →
      parse_field (some s) = []) ∧
    parse_field (some "") = [] ∧ parse_field (some "None") = [] := by
  refine ⟨rfl, ?_, by decide, by decide⟩
  intro s hs
  have hg : (s = "" || nullGuard.contains (pyLower s)) = true := by
    rcases hs with h | h | h
    · simp [h]
    · simp [nullGuard, h]
    · simp [nullGuard, h]
  simp only [parse_field, hg, if_true]

/-- Witness for C4's amended theorem at the input `"NaN"`. -/
theorem parse_field_null_guard_witness :
    parse_field (some "NaN") = [] :=
  parse_field_null_guard.2.1 "NaN" (Or.inr (Or.inl (by decide)))

/-- C5, counterexample: loading a source whose experience cell is `"-5"`
yields a record with `experienceYears = -5 < 0`: `pd.to_numeric` coerces
the negative number and nothing clamps it (app.py line 101). -/
theorem experience_can_be_negative_cex :
    (load_and_clean_data (.ok negExpCsv)).map (fun p => p.1.map (·.experienceYears)) =
      .ok [(-5 : ℚ)] ∧ (-5 : ℚ) < 0 := by
  constructor
  · decide
  · decide

/-- C5 (amended): a missing or non-numeric experience cell defaults to 0,
but a negative numeric cell is loaded as is — `experienceYears` is not
guaranteed non-negative. -/
theorem experience_defaults_to_zero :
    (∀ (header : List String) (row : List (Option String)),
      (getCell header row experienceCol).bind toNumeric = none →
      (mkRecord header row).experienceYears = 0) ∧
    (load_and_clean_data (.ok negExpCsv)).map (fun p => p.1.map (·.experienceYears)) =
      .ok [(-5 : ℚ)] := by
  constructor
  · intro header row h
    simp [mkRecord, h]
  · decide

/-- Witness for C5's amended theorem at a non-numeric cell `"abc"`. -/
theorem experience_defaults_to_zero_witness :
    (mkRecord [experienceCol] [some "abc"]).experienceYears = 0 :=
  experience_defaults_to_zero.1 [experienceCol] [some "abc"] (by decide)

/-- C6, counterexample: loading a source without the `Name` column raises
an uncaught `KeyError` (app.py line 102 indexes the column; only
`FileNotFoundError` is caught), so the load does fail for an absent
mapped column. -/
theorem load_missing_name_raises_cex :
    load_and_clean_data (.ok noNameCsv) = .error (.keyError nameCol) := by
  decide

/-- C6 (amended): a source containing the four unconditionally accessed
columns (name, strategy, rationale, experience) loads successfully no
matter which other mapped columns are absent — list-valued columns and
email/phone are tolerated, and a missing geography column degrades the
geography option set to `[]`; absence of one of those four columns,
however, raises `KeyError`. -/
theorem load_tolerates_missing_list_columns :
    ∀ csv : Csv,
      experienceCol ∈ csv.header.map pyStrip → nameCol ∈ csv.header.map pyStrip →
      strategyCol ∈ csv.header.map pyStrip → rationaleCol ∈ csv.header.map pyStrip →
      load_and_clean_data (.ok csv) =
        .ok (csv.rows.map (mkRecord (csv.header.map pyStrip)), csv.header.map pyStrip) ∧
      (geographyCol ∉ csv.header.map pyStrip →
        all_geos (csv.header.map pyStrip)
          (csv.rows.map (mkRecord (csv.header.map pyStrip))) = []) := by
  intro csv h1 h2 h3 h4
  constructor
  · simp only [load_and_clean_data, requireCol, h1, h2, h3, h4, if_pos]
    rfl
  · intro hgeo
    simp [all_geos, hgeo]

/-- Witness for C6's amended theorem at a source with only the four
required columns. -/
theorem load_tolerates_missing_list_columns_witness :
    load_and_clean_data (.ok minimalCsv) =
      .ok (minimalCsv.rows.map (mkRecord (minimalCsv.header.map pyStrip)),
        minimalCsv.header.map pyStrip) ∧
    all_geos (minimalCsv.header.map pyStrip)
      (minimalCsv.rows.map (mkRecord (minimalCsv.header.map pyStrip))) = [] :=
  ⟨(load_tolerates_missing_list_columns minimalCsv (by decide) (by decide) (by decide)
      (by decide)).1,
   (load_tolerates_missing_list_columns minimalCsv (by decide) (by decide) (by decide)
      (by decide)).2 (by decide)⟩

/-- C7: filtering an already-filtered result with the same selection
yields the same records in the same order. -/
theorem filter_idempotent (records : List CandidateRecord) (sel : FilterSelection) :
    filtered_df (filtered_df records sel) sel = filtered_df records sel := by
  rw [filtered_df_eq_filter records sel, filtered_df_eq_filter, List.filter_filter]
  exact List.filter_congr fun c _ => by cases filterPred sel c <;> simp

/-- C8: the facet option set is the deduplicated union of the normalized
per-record lists, sorted strictly ascending by case-sensitive ordinal
(code-point) string order; zero records give `[]`, and the spec's
geography example evaluates to `["UK", "US"]`. -/
theorem facet_options_sorted_dedup_union :
    (∀ lists : List (List String),
      (extractOptions lists).Pairwise (fun a b => pyStrLt a b = true) ∧
      (extractOptions lists).Nodup ∧
      (∀ s : String, s ∈ extractOptions lists ↔ ∃ l ∈ lists, s ∈ l)) ∧
    extractOptions [] = [] ∧
    extractOptions [["US", "UK"], ["UK"], []] = ["UK", "US"] := by
  refine ⟨?_, rfl, by decide⟩
  intro lists
  have hpw := pairwise_sortStrings _ (List.nodup_dedup lists.flatten)
  refine ⟨hpw, hpw.imp pyStrLt_ne, ?_⟩
  intro s
  rw [extractOptions, mem_sortStrings, List.mem_dedup, List.mem_flatten]

/-- C9, counterexample: a source that exists but cannot be read
(`pd.read_csv` raising, e.g., `PermissionError`) is not caught by the
`except FileNotFoundError` clause of app.py line 108: the loader does not
return the empty-frame `ok=false` signal — the exception propagates
across the boundary. -/
theorem load_unreadable_source_raises_cex :
    load_and_clean_data (.error (.otherReadError "PermissionError")) =
      .error (.otherReadError "PermissionError") ∧
    load_and_clean_data (.error (.otherReadError "PermissionError")) ≠ .ok ([], []) := by
  decide

/-- C9 (amended): only a missing source file (`FileNotFoundError`) is
turned into the empty record sequence with the empty column map, upon
which the caller's empty-frame guard halts; a source that exists but
cannot be read or parsed (`PermissionError`, `EmptyDataError`,
`ParserError`, …) propagates uncaught across the core/presentation
boundary instead of producing that signal. -/
theorem load_failure_returns_empty_and_halts :
    load_and_clean_data (.error .fileNotFoundError) = .ok ([], []) ∧
    appProceeds (load_and_clean_data (.error .fileNotFoundError)) = false ∧
    (∀ kind : String,
      load_and_clean_data (.error (.otherReadError kind)) =
        .error (.otherReadError kind)) := by
  refine ⟨by decide, by decide, ?_⟩
  intro kind
  rfl

/-- C10: filter matching is exact string comparison — a surviving record's
strategy is literally a member of the selected strategies and its facet
lists literally intersect the selected sets — and a record whose
geographies hold `"apac"` is not returned for the selection `{"APAC"}`. -/
theorem filter_matching_is_case_sensitive :
    (∀ (records : List CandidateRecord) (sel : FilterSelection) (c : CandidateRecord),
      c ∈ filtered_df records sel →
      (sel.selectedStrategies ≠ [] → c.strategy ∈ sel.selectedStrategies) ∧
      (sel.selectedGeos ≠ [] → ∃ g, g ∈ c.geographies ∧ g ∈ sel.selectedGeos) ∧
      (sel.selectedSectors ≠ [] → ∃ g, g ∈ c.sectors ∧ g ∈ sel.selectedSectors)) ∧
    filtered_df [apacRecord] apacSelection = [] := by
  constructor
  · intro records sel c hc
    rw [filtered_df_eq_filter] at hc
    have hp := List.of_mem_filter hc
    unfold filterPred at hp
    simp only [Bool.and_eq_true] at hp
    refine ⟨?_, ?_, ?_⟩
    · intro hne
      have h1 := hp.1.1.1
      rw [List.isEmpty_eq_false.mpr hne] at h1
      simp at h1
      exact h1
    · intro hne
      have h1 := hp.1.2
      rw [List.isEmpty_eq_false.mpr hne] at h1
      simp [overlaps] at h1
      rcases h1 with ⟨g, hg, hgc⟩
      exact ⟨g, hg, hgc⟩
    · intro hne
      have h1 := hp.2
      rw [List.isEmpty_eq_false.mpr hne] at h1
      simp [overlaps] at h1
      rcases h1 with ⟨g, hg, hgc⟩
      exact ⟨g, hg, hgc⟩
  · decide

/-- Witness for C10 at a record matching all three facets exactly. -/
theorem filter_matching_is_case_sensitive_witness :
    exactRecord.strategy ∈ exactSelection.selectedStrategies ∧
    (∃ g, g ∈ exactRecord.geographies ∧ g ∈ exactSelection.selectedGeos) ∧
    (∃ g, g ∈ exactRecord.sectors ∧ g ∈ exactSelection.selectedSectors) :=
  let h := filter_matching_is_case_sensitive.1 [exactRecord] exactSelection
    exactRecord (by decide)
  ⟨h.1 (by decide), h.2.1 (by decide), h.2.2 (by decide)⟩

example : toNumeric "-5" = some (-5) := by decide
example : toNumeric "abc" = none := by decide
example : toNumeric " 7 " = some 7 := by decide
example : toNumeric "2.5" = some (mkRat 5 2) := by decide
example : pyStrLt "UK" "US" = true := by decide

end ResumeFilter
